import Mathlib

/-!
# Memo store (`store/memo.go`)

A shallow embedding of the memo store layer: the `Visibility` enumeration, the
`Memo`, `FindMemo`, `UpdateMemo` and `DeleteMemo` records, and the operations
`CreateMemo`, `ListMemos`, `GetMemo`, `UpdateMemo` and `DeleteMemo` of `Store`.

Conventions of the embedding.

* A Go pointer that may be nil is an `Option`; a Go `error` result is an
  `Option Error` (`none` is the nil error); a pair `(*Memo, error)` is a pair
  of options.
* The storage driver is an interface of the program: it is a record of
  transition functions over an arbitrary driver state `σ`.
* The global random source, the driver state and the sequence of driver calls
  made so far are threaded explicitly through a `World`.
* The unbounded `for` loop of `CreateMemo` takes a fuel argument; running out
  of fuel is the outcome `Exec.outOfFuel`, an index out of range is
  `Exec.panic`.
-/

namespace store

/-! ## Data model -/

/-- Go `error` values, identified by their message. -/
structure Error where
  msg : String
deriving DecidableEq, Repr

/-- The call `errors.New(text)`. -/
def errors.New (text : String) : Error := ⟨text⟩

/-- The type `context.Context`; a context is passed through to the driver
unchanged and never inspected by the store. -/
structure Context where
  id : Nat
deriving DecidableEq, Repr

/-- The type `RowStatus` (a string type declared elsewhere in the package). -/
abbrev RowStatus := String

/-- Modelled from the spec: `storepb.MemoPayload` is declared in the generated
protobuf package; the store treats it as opaque structured metadata. -/
structure MemoPayload where
  raw : String
deriving DecidableEq, Repr

/-- The type `Visibility`, a string type. -/
structure Visibility where
  val : String
deriving DecidableEq, Repr

/-- The constant `Public`. -/
def Public : Visibility := ⟨"PUBLIC"⟩
/-- The constant `Protected`. -/
def Protected : Visibility := ⟨"PROTECTED"⟩
/-- The constant `Private`. -/
def Private : Visibility := ⟨"PRIVATE"⟩

/-- The method `Visibility.String`: a switch over the three constants with a
fall-through return of `"PRIVATE"`. -/
def Visibility.String (v : Visibility) : String :=
  if v = Public then "PUBLIC"
  else if v = Protected then "PROTECTED"
  else if v = Private then "PRIVATE"
  else "PRIVATE"

/-- The struct `Memo`. -/
structure Memo where
  ID : Int
  UID : String
  ShortID : String
  RowStatus : RowStatus
  CreatorID : Int
  CreatedTs : Int
  UpdatedTs : Int
  Content : String
  Visibility : Visibility
  Pinned : Bool
  Payload : Option MemoPayload
  ParentID : Option Int
deriving DecidableEq, Repr

/-- The struct `FindMemoPayload`. -/
structure FindMemoPayload where
  Raw : Option String := none
  TagSearch : List String := []
  HasLink : Bool := false
  HasTaskList : Bool := false
  HasCode : Bool := false
  HasIncompleteTasks : Bool := false
deriving DecidableEq, Repr

/-- The struct `FindMemo`; every field defaults to its Go zero value. -/
structure FindMemo where
  ID : Option Int := none
  UID : Option String := none
  ShortID : Option String := none
  RowStatus : Option RowStatus := none
  CreatorID : Option Int := none
  CreatedTsAfter : Option Int := none
  CreatedTsBefore : Option Int := none
  UpdatedTsAfter : Option Int := none
  UpdatedTsBefore : Option Int := none
  ContentSearch : List String := []
  VisibilityList : List Visibility := []
  PayloadFind : Option FindMemoPayload := none
  ExcludeContent : Bool := false
  ExcludeComments : Bool := false
  Filter : Option String := none
  Limit : Option Int := none
  Offset : Option Int := none
  OrderByUpdatedTs : Bool := false
  OrderByPinned : Bool := false
  OrderByTimeAsc : Bool := false
deriving DecidableEq, Repr

/-- The struct `UpdateMemo`. -/
structure UpdateMemo where
  ID : Int
  UID : Option String := none
  CreatedTs : Option Int := none
  UpdatedTs : Option Int := none
  RowStatus : Option RowStatus := none
  Content : Option String := none
  Visibility : Option Visibility := none
  Pinned : Option Bool := none
  Payload : Option MemoPayload := none
deriving DecidableEq, Repr

/-- The struct `DeleteMemo`. -/
structure DeleteMemo where
  ID : Int
deriving DecidableEq, Repr

/-! ## Driver, world and outcomes -/

/-- The driver interface as the store uses it: each method takes the driver
state, the context and its argument, and yields its Go results together with
the next driver state. -/
structure Driver (σ : Type) where
  CreateMemo : σ → Context → Memo → (Option Memo × Option Error) × σ
  ListMemos : σ → Context → FindMemo → (List (Option Memo) × Option Error) × σ
  UpdateMemo : σ → Context → UpdateMemo → Option Error × σ
  DeleteMemo : σ → Context → DeleteMemo → Option Error × σ

/-- One call made on the driver, with the argument it received. -/
inductive Call where
  | CreateMemo (create : Memo)
  | ListMemos (find : FindMemo)
  | UpdateMemo (update : UpdateMemo)
  | DeleteMemo (delete : DeleteMemo)
deriving DecidableEq, Repr

/-- Whether a driver call is a `CreateMemo` call. -/
def Call.isCreateMemo : Call → Bool
  | .CreateMemo _ => true
  | _ => false

/-- Whether a driver call is a `ListMemos` call. -/
def Call.isListMemos : Call → Bool
  | .ListMemos _ => true
  | _ => false

/-- Everything outside the store that an operation can touch: the driver
state, the number of values drawn so far from the global random source, and
the driver calls made so far, oldest first. -/
structure World (σ : Type) where
  drv : σ
  drawn : Nat
  calls : List Call

/-- The struct `Store`, reduced to its `driver` field. -/
structure Store (σ : Type) where
  driver : Driver σ

/-- Outcome of running code that may index out of range or loop. -/
inductive Exec (α : Type) where
  | ret (a : α)
  | panic
  | outOfFuel

/-! ## List, Get, Update, Delete -/

/-- The method `Store.ListMemos`: one `driver.ListMemos` call. -/
def Store.ListMemos {σ : Type} (s : Store σ) (ctx : Context) (find : FindMemo)
    (w : World σ) : (List (Option Memo) × Option Error) × World σ :=
  let r := s.driver.ListMemos w.drv ctx find
  (r.1, { w with drv := r.2, calls := w.calls ++ [Call.ListMemos find] })

/-- The method `Store.GetMemo`. -/
def Store.GetMemo {σ : Type} (s : Store σ) (ctx : Context) (find : FindMemo)
    (w : World σ) : (Option Memo × Option Error) × World σ :=
  let r := s.ListMemos ctx find w
  match r.1.2 with
  | some err => ((none, some err), r.2)
  | none =>
    match r.1.1 with
    | [] => ((none, none), r.2)
    | memo :: _ => ((memo, none), r.2)

/-- The method `Store.UpdateMemo`; `UIDMatcher` is `util.UIDMatcher.MatchString`.
The guard is `update.UID != nil && !UIDMatcher(*update.UID)`. -/
def Store.UpdateMemo {σ : Type} (UIDMatcher : String → Bool) (s : Store σ) (ctx : Context)
    (update : UpdateMemo) (w : World σ) : Option Error × World σ :=
  let invalid : Bool :=
    match update.UID with
    | some uid => !UIDMatcher uid
    | none => false
  if invalid then (some (errors.New "invalid uid"), w)
  else
    let r := s.driver.UpdateMemo w.drv ctx update
    (r.1, { w with drv := r.2, calls := w.calls ++ [Call.UpdateMemo update] })

/-- The method `Store.DeleteMemo`: one `driver.DeleteMemo` call. -/
def Store.DeleteMemo {σ : Type} (s : Store σ) (ctx : Context) (delete : DeleteMemo)
    (w : World σ) : Option Error × World σ :=
  let r := s.driver.DeleteMemo w.drv ctx delete
  (r.1, { w with drv := r.2, calls := w.calls ++ [Call.DeleteMemo delete] })

/-! ## Create -/

/-- The constant `letters` of `CreateMemo`. -/
def letters : String := "abcdefghijklmnopqrstuvwxyz"

/-- The constant `digits` of `CreateMemo`. -/
def digits : String := "0123456789"

/-- The call `rand.Intn(n)`: the next raw value of the random source, reduced
into `[0, n)`. `rand` is the sequence of raw values the source yields once
`rand.Seed(time.Now().UnixNano())` has run; `World.drawn` is the position in it. -/
def Intn {σ : Type} (rand : Nat → Nat) (n : Nat) (w : World σ) : Nat × World σ :=
  (rand w.drawn % n, { w with drawn := w.drawn + 1 })

/-- One of the two inner loops of `CreateMemo`,
`for i := 0; i < n; i++ { shortID += string(alphabet[rand.Intn(len(alphabet))]) }`,
by recursion on the iterations left. `none` is an index-out-of-range panic. -/
def appendRandom {σ : Type} (rand : Nat → Nat) (alphabet : String) :
    Nat → String → World σ → Option (String × World σ)
  | 0, shortID, w => some (shortID, w)
  | n + 1, shortID, w =>
    let r := Intn rand alphabet.length w
    match alphabet.data[r.1]? with
    | none => none
    | some c => appendRandom rand alphabet n (shortID ++ String.singleton c) r.2

/-- Candidate generation: three random letters, then four random digits,
appended to the empty string. -/
def genShortID {σ : Type} (rand : Nat → Nat) (w : World σ) : Option (String × World σ) :=
  match appendRandom rand letters 3 "" w with
  | none => none
  | some r => appendRandom rand digits 4 r.1 r.2

/-- How the outer loop of `CreateMemo` is left. -/
inductive Exit (σ : Type) where
  /-- The lookup failed: `return nil, err`. -/
  | failed (err : Error) (w : World σ)
  /-- The lookup found nothing: `create.ShortID = shortID; break`. -/
  | unique (shortID : String) (w : World σ)

/-- How one iteration of the outer loop of `CreateMemo` ends: it leaves the
loop, or the lookup found a memo and the loop tries again. -/
inductive Attempt (σ : Type) where
  | exit (e : Exit σ)
  | collision (w : World σ)

/-- The body of the outer loop of `CreateMemo`: generate a candidate and look
it up with `GetMemo(ctx, &FindMemo{ShortID: &shortID})`. `none` is a panic. -/
def attempt {σ : Type} (rand : Nat → Nat) (s : Store σ) (ctx : Context) (w : World σ) :
    Option (Attempt σ) :=
  match genShortID rand w with
  | none => none
  | some g =>
    let r := s.GetMemo ctx { ShortID := some g.1 } g.2
    match r.1.2 with
    | some err => some (Attempt.exit (Exit.failed err r.2))
    | none =>
      match r.1.1 with
      | none => some (Attempt.exit (Exit.unique g.1 r.2))
      | some _ => some (Attempt.collision r.2)

/-- The outer loop `for { ... }` of `CreateMemo`, with fuel for the number of
iterations. -/
def allocate {σ : Type} (rand : Nat → Nat) (s : Store σ) (ctx : Context) :
    Nat → World σ → Exec (Exit σ)
  | 0, _ => Exec.outOfFuel
  | fuel + 1, w =>
    match attempt rand s ctx w with
    | none => Exec.panic
    | some (Attempt.exit e) => Exec.ret e
    | some (Attempt.collision w1) => allocate rand s ctx fuel w1

/-- What a call of `CreateMemo` leaves behind: the returned pair, the memo
behind the caller's pointer as the store left it (it is the memo handed to the
driver when the driver is reached), and the world. -/
structure CreateResult (σ : Type) where
  memo : Option Memo
  err : Option Error
  create : Memo
  world : World σ

/-- The method `Store.CreateMemo`; `UIDMatcher` is `util.UIDMatcher.MatchString`,
`rand` the raw values the random source yields after the call
`rand.Seed(time.Now().UnixNano())` that follows the validation, `fuel` bounds
the iterations of the outer loop. The assignment `create.ShortID = shortID`
made before `break` is applied here to the shortID the loop exits with. -/
def Store.CreateMemo {σ : Type} (UIDMatcher : String → Bool) (rand : Nat → Nat) (s : Store σ)
    (ctx : Context) (create : Memo) (fuel : Nat) (w : World σ) : Exec (CreateResult σ) :=
  if !UIDMatcher create.UID then
    Exec.ret ⟨none, some (errors.New "invalid uid"), create, w⟩
  else
    match allocate rand s ctx fuel w with
    | Exec.panic => Exec.panic
    | Exec.outOfFuel => Exec.outOfFuel
    | Exec.ret (Exit.failed err w1) => Exec.ret ⟨none, some err, create, w1⟩
    | Exec.ret (Exit.unique shortID w1) =>
      let create1 : Memo := { create with ShortID := shortID }
      let r := s.driver.CreateMemo w1.drv ctx create1
      Exec.ret ⟨r.1.1, r.1.2, create1,
        { w1 with drv := r.2, calls := w1.calls ++ [Call.CreateMemo create1] }⟩

/-! ## Notions used to state the properties -/

/-- The pattern `[a-z]{3}[0-9]{4}`: exactly seven characters, the first three
in `a`..`z`, the last four in `0`..`9`. -/
def matchesShortID (s : String) : Bool :=
  s.data.length == 7 &&
    (s.data.take 3).all (fun c => decide ('a' ≤ c ∧ c ≤ 'z')) &&
    (s.data.drop 3).all (fun c => decide ('0' ≤ c ∧ c ≤ '9'))

/-- The world after `k` iterations of the outer loop that all ended in a
collision; `none` when one of them ended otherwise. -/
def afterCollisions {σ : Type} (rand : Nat → Nat) (s : Store σ) (ctx : Context) :
    Nat → World σ → Option (World σ)
  | 0, w => some w
  | k + 1, w =>
    match attempt rand s ctx w with
    | some (Attempt.collision w1) => afterCollisions rand s ctx k w1
    | _ => none

/-- The seven draws of one attempt: three indices below 26, four below 10. -/
abbrev Draws := (Fin 26 × Fin 26 × Fin 26) × (Fin 10 × Fin 10 × Fin 10 × Fin 10)

/-- The raw values of a random source that yields the given seven draws. -/
def Draws.rand (d : Draws) : Nat → Nat
  | 0 => d.1.1
  | 1 => d.1.2.1
  | 2 => d.1.2.2
  | 3 => d.2.1
  | 4 => d.2.2.1
  | 5 => d.2.2.2.1
  | 6 => d.2.2.2.2
  | _ => 0

/-- The candidate `CreateMemo` generates from the given seven draws. -/
def candidate (d : Draws) : Option String :=
  (genShortID d.rand (⟨(), 0, []⟩ : World Unit)).map Prod.fst

/-- A recording driver: the state is the list of stored memos, `ListMemos` by
`ShortID` returns the stored memos with that exact `ShortID`, `CreateMemo`
stores and returns the memo it is given. -/
def recordingDriver : Driver (List Memo) where
  CreateMemo := fun st _ create => ((some create, none), st ++ [create])
  ListMemos := fun st _ find =>
    (((st.filter (fun m => decide (find.ShortID = none ∨ find.ShortID = some m.ShortID))).map
      some, none), st)
  UpdateMemo := fun st _ _ => (none, st)
  DeleteMemo := fun st _ delete => (none, st.filter (fun m => decide (m.ID ≠ delete.ID)))

/-- Modelled from the spec: what a driver's `UpdateMemo` does to one stored
memo under patch semantics (the drivers are not part of this file): only the
memo with the descriptor's `ID` changes, and only in the supplied fields. -/
def applyPatch (update : UpdateMemo) (m : Memo) : Memo :=
  if m.ID = update.ID then
    { m with
      UID := update.UID.getD m.UID
      CreatedTs := update.CreatedTs.getD m.CreatedTs
      UpdatedTs := update.UpdatedTs.getD m.UpdatedTs
      RowStatus := update.RowStatus.getD m.RowStatus
      Content := update.Content.getD m.Content
      Visibility := update.Visibility.getD m.Visibility
      Pinned := update.Pinned.getD m.Pinned
      Payload := match update.Payload with
        | some p => some p
        | none => m.Payload }
  else m

/-- Modelled from the spec: a driver over a list of stored memos whose
`UpdateMemo` applies patch semantics. -/
def patchDriver : Driver (List Memo) where
  CreateMemo := fun st _ create => ((some create, none), st ++ [create])
  ListMemos := fun st _ _ => ((st.map some, none), st)
  UpdateMemo := fun st _ update => (none, st.map (applyPatch update))
  DeleteMemo := fun st _ delete => (none, st.filter (fun m => decide (m.ID ≠ delete.ID)))

/-- A driver that reports no failure and answers every lookup with a memo. -/
def collidingDriver (m : Memo) : Driver Unit where
  CreateMemo := fun st _ create => ((some create, none), st)
  ListMemos := fun st _ _ => (([some m], none), st)
  UpdateMemo := fun st _ _ => (none, st)
  DeleteMemo := fun st _ _ => (none, st)

/-- The cancellation error of a context, as a function of the driver state:
the state counts the lookups left before the context is canceled. -/
def countdownErr (st : Nat) : Option Error :=
  if st = 0 then some (errors.New "context canceled") else none

/-- A driver that honours cancellation: once the context is canceled its
`ListMemos` returns the cancellation error; before that every lookup finds the
memo `m`. -/
def countdownDriver (m : Memo) : Driver Nat where
  CreateMemo := fun st _ create => ((some create, none), st)
  ListMemos := fun st _ _ =>
    match countdownErr st with
    | some err => (([], some err), st)
    | none => (([some m], none), st - 1)
  UpdateMemo := fun st _ _ => (none, st)
  DeleteMemo := fun st _ _ => (none, st)

/-! ## Derived notions used in statements and proofs -/

/-- A driver that reports no failure: none of its methods returns an error. -/
def Driver.NoFailure {σ : Type} (d : Driver σ) : Prop :=
  (∀ st ctx create, (d.CreateMemo st ctx create).1.2 = none) ∧
  (∀ st ctx find, (d.ListMemos st ctx find).1.2 = none) ∧
  (∀ st ctx update, (d.UpdateMemo st ctx update).1 = none) ∧
  (∀ st ctx delete, (d.DeleteMemo st ctx delete).1 = none)

/-- Consecutive `CreateMemo` calls, one per request (the memo to create, the
random source of the call and its fuel), each starting in the world the
previous one left. The result lists the `ShortID`s the calls committed to;
it is `none` unless every call returns without error. -/
def createAll {σ : Type} (UIDMatcher : String → Bool) (s : Store σ) (ctx : Context) :
    List (Memo × (Nat → Nat) × Nat) → World σ → Option (List String × World σ)
  | [], w => some ([], w)
  | req :: rest, w =>
    match s.CreateMemo UIDMatcher req.2.1 ctx req.1 req.2.2 w with
    | Exec.ret r =>
      match r.err with
      | none =>
        (createAll UIDMatcher s ctx rest r.world).map (fun p => (r.create.ShortID :: p.1, p.2))
      | some _ => none
    | _ => none

/-- Closed form of the candidate generated from the raw values at positions
`p`, ..., `p + 6` of the random source. -/
def shortIDAt (rand : Nat → Nat) (p : Nat) : String :=
  ⟨[Char.ofNat (97 + rand p % 26), Char.ofNat (97 + rand (p + 1) % 26),
    Char.ofNat (97 + rand (p + 2) % 26), Char.ofNat (48 + rand (p + 3) % 10),
    Char.ofNat (48 + rand (p + 4) % 10), Char.ofNat (48 + rand (p + 5) % 10),
    Char.ofNat (48 + rand (p + 6) % 10)]⟩

/-- The seven indices drawn when generation starts at position `p` of the
random source. -/
def drawsOf (rand : Nat → Nat) (p : Nat) : Draws :=
  ((Fin.ofNat (rand p), Fin.ofNat (rand (p + 1)), Fin.ofNat (rand (p + 2))),
    (Fin.ofNat (rand (p + 3)), Fin.ofNat (rand (p + 4)), Fin.ofNat (rand (p + 5)),
      Fin.ofNat (rand (p + 6))))

/-- The filter of the uniqueness lookup made when an iteration starts in `w`. -/
def lookupFind {σ : Type} (rand : Nat → Nat) (w : World σ) : FindMemo :=
  { ShortID := some (shortIDAt rand w.drawn) }

/-- The world after the candidate generation and lookup of one iteration. -/
def afterLookup {σ : Type} (rand : Nat → Nat) (s : Store σ) (ctx : Context) (w : World σ) :
    World σ :=
  { drv := (s.driver.ListMemos w.drv ctx (lookupFind rand w)).2, drawn := w.drawn + 7,
    calls := w.calls ++ [Call.ListMemos (lookupFind rand w)] }

/-! ## Auxiliary lemmas

Candidate generation in closed form (`genShortID_eq`), the characters of the
two alphabets, one iteration of the outer loop (`attempt_eq`) and the shape of
every run of the loop (`allocate_cases`, `allocate_of_exit`). -/

theorem letters_index (k : Nat) (h : k < 26) : letters.data[k]? = some (Char.ofNat (97 + k)) := by
  interval_cases k <;> rfl

theorem digits_index (k : Nat) (h : k < 10) : digits.data[k]? = some (Char.ofNat (48 + k)) := by
  interval_cases k <;> rfl

theorem appendRandom_zero {σ : Type} (rand : Nat → Nat) (alphabet : String) (acc : String)
    (w : World σ) : appendRandom rand alphabet 0 acc w = some (acc, w) := rfl

theorem letters_step {σ : Type} (rand : Nat → Nat) (n : Nat) (acc : String) (w : World σ) :
    appendRandom rand letters (n + 1) acc w =
      appendRandom rand letters n (acc ++ String.singleton (Char.ofNat (97 + rand w.drawn % 26)))
        { w with drawn := w.drawn + 1 } := by
  have hl : letters.length = 26 := by decide
  simp only [appendRandom, Intn, hl, letters_index _ (Nat.mod_lt _ (by decide : 0 < 26))]

theorem digits_step {σ : Type} (rand : Nat → Nat) (n : Nat) (acc : String) (w : World σ) :
    appendRandom rand digits (n + 1) acc w =
      appendRandom rand digits n (acc ++ String.singleton (Char.ofNat (48 + rand w.drawn % 10)))
        { w with drawn := w.drawn + 1 } := by
  have hl : digits.length = 10 := by decide
  simp only [appendRandom, Intn, hl, digits_index _ (Nat.mod_lt _ (by decide : 0 < 10))]

theorem genShortID_eq {σ : Type} (rand : Nat → Nat) (w : World σ) :
    genShortID rand w = some (shortIDAt rand w.drawn, { w with drawn := w.drawn + 7 }) := by
  unfold genShortID
  rw [letters_step, letters_step, letters_step, appendRandom_zero]
  dsimp only
  rw [digits_step, digits_step, digits_step, digits_step, appendRandom_zero]
  simp only [Option.some.injEq, Prod.mk.injEq]
  constructor
  · apply String.ext
    simp [shortIDAt]
  · trivial

theorem letter_range (k : Nat) (h : k < 26) :
    'a' ≤ Char.ofNat (97 + k) ∧ Char.ofNat (97 + k) ≤ 'z' := by
  interval_cases k <;> decide

theorem digit_range (k : Nat) (h : k < 10) :
    '0' ≤ Char.ofNat (48 + k) ∧ Char.ofNat (48 + k) ≤ '9' := by
  interval_cases k <;> decide

theorem letter_toNat (k : Nat) (h : k < 26) : (Char.ofNat (97 + k)).toNat = 97 + k := by
  interval_cases k <;> rfl

theorem digit_toNat (k : Nat) (h : k < 10) : (Char.ofNat (48 + k)).toNat = 48 + k := by
  interval_cases k <;> rfl

theorem letter_inj {a b : Nat} (ha : a < 26) (hb : b < 26)
    (h : Char.ofNat (97 + a) = Char.ofNat (97 + b)) : a = b := by
  have := congrArg Char.toNat h
  rw [letter_toNat a ha, letter_toNat b hb] at this
  omega

theorem digit_inj {a b : Nat} (ha : a < 10) (hb : b < 10)
    (h : Char.ofNat (48 + a) = Char.ofNat (48 + b)) : a = b := by
  have := congrArg Char.toNat h
  rw [digit_toNat a ha, digit_toNat b hb] at this
  omega

theorem letter_of_range (c : Char) (h : 'a' ≤ c ∧ c ≤ 'z') :
    ∃ k, k < 26 ∧ c = Char.ofNat (97 + k) := by
  have h1 : 97 ≤ c.toNat := h.1
  have h2 : c.toNat ≤ 122 := h.2
  refine ⟨c.toNat - 97, by omega, ?_⟩
  have : 97 + (c.toNat - 97) = c.toNat := by omega
  rw [this, Char.ofNat_toNat]

theorem digit_of_range (c : Char) (h : '0' ≤ c ∧ c ≤ '9') :
    ∃ k, k < 10 ∧ c = Char.ofNat (48 + k) := by
  have h1 : 48 ≤ c.toNat := h.1
  have h2 : c.toNat ≤ 57 := h.2
  refine ⟨c.toNat - 48, by omega, ?_⟩
  have : 48 + (c.toNat - 48) = c.toNat := by omega
  rw [this, Char.ofNat_toNat]

theorem matchesShortID_shortIDAt (rand : Nat → Nat) (p : Nat) :
    matchesShortID (shortIDAt rand p) = true := by
  have l := fun r => letter_range (r % 26) (Nat.mod_lt _ (by decide))
  have d := fun r => digit_range (r % 10) (Nat.mod_lt _ (by decide))
  simp [matchesShortID, shortIDAt, l, d]

theorem candidate_eq (d : Draws) : candidate d = some (shortIDAt d.rand 0) := by
  simp [candidate, genShortID_eq]

theorem shortIDAt_draws (d : Draws) :
    shortIDAt d.rand 0 =
      ⟨[Char.ofNat (97 + d.1.1), Char.ofNat (97 + d.1.2.1), Char.ofNat (97 + d.1.2.2),
        Char.ofNat (48 + d.2.1), Char.ofNat (48 + d.2.2.1), Char.ofNat (48 + d.2.2.2.1),
        Char.ofNat (48 + d.2.2.2.2)]⟩ := by
  simp [shortIDAt, Draws.rand, Nat.mod_eq_of_lt]

theorem shortIDAt_drawsOf (rand : Nat → Nat) (p : Nat) :
    shortIDAt (drawsOf rand p).rand 0 = shortIDAt rand p := by
  rw [shortIDAt_draws]
  simp [shortIDAt, drawsOf, Fin.ofNat]

theorem candidate_injective (d d' : Draws) (h : candidate d = candidate d') : d = d' := by
  rw [candidate_eq, candidate_eq, shortIDAt_draws, shortIDAt_draws] at h
  obtain ⟨⟨a, b, c⟩, x, y, z, t⟩ := d
  obtain ⟨⟨a', b', c'⟩, x', y', z', t'⟩ := d'
  have h := congrArg String.data (Option.some.inj h)
  simp only [List.cons.injEq, and_true] at h
  obtain ⟨h1, h2, h3, h4, h5, h6, h7⟩ := h
  have e1 := Fin.ext (letter_inj a.isLt a'.isLt h1)
  have e2 := Fin.ext (letter_inj b.isLt b'.isLt h2)
  have e3 := Fin.ext (letter_inj c.isLt c'.isLt h3)
  have e4 := Fin.ext (digit_inj x.isLt x'.isLt h4)
  have e5 := Fin.ext (digit_inj y.isLt y'.isLt h5)
  have e6 := Fin.ext (digit_inj z.isLt z'.isLt h6)
  have e7 := Fin.ext (digit_inj t.isLt t'.isLt h7)
  subst e1 e2 e3 e4 e5 e6 e7
  rfl

theorem candidate_surjective (s : String) (h : matchesShortID s = true) :
    ∃ d : Draws, candidate d = some s := by
  obtain ⟨l⟩ := s
  have hlen : l.length = 7 := by
    simp [matchesShortID] at h
    exact h.1.1
  rcases l with _ | ⟨c1, _ | ⟨c2, _ | ⟨c3, _ | ⟨c4, _ | ⟨c5, _ | ⟨c6, _ | ⟨c7, _ | ⟨c8, l⟩⟩⟩⟩⟩⟩⟩⟩ <;>
    simp at hlen
  simp [matchesShortID] at h
  obtain ⟨⟨⟨h1, h1'⟩, ⟨h2, h2'⟩, h3, h3'⟩, ⟨h4, h4'⟩, ⟨h5, h5'⟩, ⟨h6, h6'⟩, h7, h7'⟩ := h
  obtain ⟨k1, l1, rfl⟩ := letter_of_range c1 ⟨h1, h1'⟩
  obtain ⟨k2, l2, rfl⟩ := letter_of_range c2 ⟨h2, h2'⟩
  obtain ⟨k3, l3, rfl⟩ := letter_of_range c3 ⟨h3, h3'⟩
  obtain ⟨k4, l4, rfl⟩ := digit_of_range c4 ⟨h4, h4'⟩
  obtain ⟨k5, l5, rfl⟩ := digit_of_range c5 ⟨h5, h5'⟩
  obtain ⟨k6, l6, rfl⟩ := digit_of_range c6 ⟨h6, h6'⟩
  obtain ⟨k7, l7, rfl⟩ := digit_of_range c7 ⟨h7, h7'⟩
  refine ⟨((⟨k1, l1⟩, ⟨k2, l2⟩, ⟨k3, l3⟩), (⟨k4, l4⟩, ⟨k5, l5⟩, ⟨k6, l6⟩, ⟨k7, l7⟩)), ?_⟩
  rw [candidate_eq, shortIDAt_draws]

theorem card_Draws : Fintype.card Draws = 175760000 := by
  simp only [Fintype.card_prod, Fintype.card_fin]

theorem card_matching : Nat.card { s : String // matchesShortID s = true } = 175760000 := by
  let f : Draws → { s : String // matchesShortID s = true } := fun d =>
    ⟨shortIDAt d.rand 0, matchesShortID_shortIDAt _ _⟩
  have hf : Function.Bijective f := by
    constructor
    · intro d d' h
      apply candidate_injective
      rw [candidate_eq, candidate_eq]
      exact congrArg (fun x => some x.1) h
    · rintro ⟨s, hs⟩
      obtain ⟨d, hd⟩ := candidate_surjective s hs
      refine ⟨d, Subtype.ext ?_⟩
      rw [candidate_eq] at hd
      exact Option.some.inj hd
  rw [← Nat.card_eq_of_bijective f hf, Nat.card_eq_fintype_card, card_Draws]

theorem attempt_eq {σ : Type} (rand : Nat → Nat) (s : Store σ) (ctx : Context) (w : World σ) :
    attempt rand s ctx w =
      some (match (s.driver.ListMemos w.drv ctx (lookupFind rand w)).1.2 with
        | some err => Attempt.exit (Exit.failed err (afterLookup rand s ctx w))
        | none =>
          match (s.driver.ListMemos w.drv ctx (lookupFind rand w)).1.1 with
          | some _ :: _ => Attempt.collision (afterLookup rand s ctx w)
          | _ => Attempt.exit (Exit.unique (shortIDAt rand w.drawn) (afterLookup rand s ctx w))) := by
  unfold attempt
  rw [genShortID_eq]
  simp only [Store.GetMemo, Store.ListMemos, lookupFind, afterLookup]
  rcases h2 : (s.driver.ListMemos w.drv ctx { ShortID := some (shortIDAt rand w.drawn) }).1.2
    with _ | err
  · rcases h1 : (s.driver.ListMemos w.drv ctx { ShortID := some (shortIDAt rand w.drawn) }).1.1
      with _ | ⟨_ | m, rest⟩ <;> simp
  · simp

theorem attempt_exit {σ : Type} {rand : Nat → Nat} {s : Store σ} {ctx : Context} {w : World σ}
    {e : Exit σ} (h : attempt rand s ctx w = some (Attempt.exit e)) :
    (∃ err, (s.driver.ListMemos w.drv ctx (lookupFind rand w)).1.2 = some err ∧
        e = Exit.failed err (afterLookup rand s ctx w)) ∨
      ((s.driver.ListMemos w.drv ctx (lookupFind rand w)).1.2 = none ∧
        (∀ m rest, (s.driver.ListMemos w.drv ctx (lookupFind rand w)).1.1 ≠ some m :: rest) ∧
        e = Exit.unique (shortIDAt rand w.drawn) (afterLookup rand s ctx w)) := by
  rw [attempt_eq] at h
  rcases h2 : (s.driver.ListMemos w.drv ctx (lookupFind rand w)).1.2 with _ | err
  · right
    rw [h2] at h
    rcases h1 : (s.driver.ListMemos w.drv ctx (lookupFind rand w)).1.1 with _ | ⟨_ | m, rest⟩
    · rw [h1] at h
      simp at h
      exact ⟨rfl, by simp, h.symm⟩
    · rw [h1] at h
      simp at h
      exact ⟨rfl, by simp, h.symm⟩
    · rw [h1] at h
      simp at h
  · left
    rw [h2] at h
    simp at h
    exact ⟨err, rfl, h.symm⟩

theorem attempt_collision {σ : Type} {rand : Nat → Nat} {s : Store σ} {ctx : Context}
    {w w1 : World σ} (h : attempt rand s ctx w = some (Attempt.collision w1)) :
    w1 = afterLookup rand s ctx w ∧
      (s.driver.ListMemos w.drv ctx (lookupFind rand w)).1.2 = none ∧
      ∃ m rest, (s.driver.ListMemos w.drv ctx (lookupFind rand w)).1.1 = some m :: rest := by
  rw [attempt_eq] at h
  rcases h2 : (s.driver.ListMemos w.drv ctx (lookupFind rand w)).1.2 with _ | err
  · rw [h2] at h
    rcases h1 : (s.driver.ListMemos w.drv ctx (lookupFind rand w)).1.1 with _ | ⟨_ | m, rest⟩
    · rw [h1] at h
      simp at h
    · rw [h1] at h
      simp at h
    · rw [h1] at h
      simp at h
      exact ⟨h.symm, rfl, m, rest, rfl⟩
  · rw [h2] at h
    simp at h

theorem afterCollisions_succ {σ : Type} {rand : Nat → Nat} {s : Store σ} {ctx : Context}
    {k : Nat} {w wk : World σ} (h : afterCollisions rand s ctx (k + 1) w = some wk) :
    attempt rand s ctx w = some (Attempt.collision (afterLookup rand s ctx w)) ∧
      afterCollisions rand s ctx k (afterLookup rand s ctx w) = some wk := by
  unfold afterCollisions at h
  split at h
  · rename_i w1 hw1
    obtain ⟨rfl, -, -⟩ := attempt_collision hw1
    exact ⟨hw1, h⟩
  · simp at h

theorem allocate_shift {σ : Type} {rand : Nat → Nat} {s : Store σ} {ctx : Context}
    (n : Nat) : ∀ (k : Nat) (w wk : World σ), afterCollisions rand s ctx k w = some wk →
      allocate rand s ctx (k + n) w = allocate rand s ctx n wk
  | 0, w, wk, h => by
    simp only [afterCollisions, Option.some.injEq] at h
    subst h
    simp
  | k + 1, w, wk, h => by
    obtain ⟨ha, hk⟩ := afterCollisions_succ h
    have : k + 1 + n = (k + n) + 1 := by omega
    rw [this, allocate, ha]
    exact allocate_shift n k _ _ hk

theorem afterCollisions_world {σ : Type} {rand : Nat → Nat} {s : Store σ} {ctx : Context} :
    ∀ (k : Nat) (w wk : World σ), afterCollisions rand s ctx k w = some wk →
      wk.drawn = w.drawn + 7 * k ∧
        ∃ new, wk.calls = w.calls ++ new ∧ new.length = k ∧ ∀ c ∈ new, c.isListMemos = true
  | 0, w, wk, h => by
    simp only [afterCollisions, Option.some.injEq] at h
    subst h
    exact ⟨rfl, [], by simp, rfl, by simp⟩
  | k + 1, w, wk, h => by
    obtain ⟨-, hk⟩ := afterCollisions_succ h
    obtain ⟨hd, new, hc, hl, hall⟩ := afterCollisions_world k _ _ hk
    refine ⟨?_, Call.ListMemos (lookupFind rand w) :: new, ?_, by simp [hl], ?_⟩
    · rw [hd]; simp only [afterLookup]; omega
    · rw [hc]; simp [afterLookup]
    · intro c hc
      rcases List.mem_cons.1 hc with rfl | hc
      · rfl
      · exact hall c hc

theorem allocate_cases {σ : Type} (rand : Nat → Nat) (s : Store σ) (ctx : Context) :
    ∀ (fuel : Nat) (w : World σ), allocate rand s ctx fuel w = Exec.outOfFuel ∨
      ∃ j wj e, j < fuel ∧ afterCollisions rand s ctx j w = some wj ∧
        attempt rand s ctx wj = some (Attempt.exit e) ∧ allocate rand s ctx fuel w = Exec.ret e
  | 0, w => Or.inl rfl
  | fuel + 1, w => by
    rw [allocate]
    rcases ha : attempt rand s ctx w with _ | ⟨e | w1⟩
    · rw [attempt_eq] at ha
      simp at ha
    · exact Or.inr ⟨0, w, e, by omega, rfl, ha, rfl⟩
    · rcases allocate_cases rand s ctx fuel w1 with h | ⟨j, wj, e, hj, hk, he, hr⟩
      · exact Or.inl h
      · refine Or.inr ⟨j + 1, wj, e, by omega, ?_, he, hr⟩
        simp only [afterCollisions, ha]
        exact hk

theorem CreateMemo_invalid_uid_aux {σ : Type} {UIDMatcher : String → Bool} {rand : Nat → Nat}
    {s : Store σ} {ctx : Context} {create : Memo} {fuel : Nat} {w : World σ}
    (h : UIDMatcher create.UID = false) :
    s.CreateMemo UIDMatcher rand ctx create fuel w =
      Exec.ret ⟨none, some (errors.New "invalid uid"), create, w⟩ := by
  simp [Store.CreateMemo, h]

theorem CreateMemo_of_outOfFuel {σ : Type} {UIDMatcher : String → Bool} {rand : Nat → Nat}
    {s : Store σ} {ctx : Context} {create : Memo} {fuel : Nat} {w : World σ}
    (hvalid : UIDMatcher create.UID = true)
    (h : allocate rand s ctx fuel w = Exec.outOfFuel) :
    s.CreateMemo UIDMatcher rand ctx create fuel w = Exec.outOfFuel := by
  simp [Store.CreateMemo, hvalid, h]

theorem CreateMemo_of_failed {σ : Type} {UIDMatcher : String → Bool} {rand : Nat → Nat}
    {s : Store σ} {ctx : Context} {create : Memo} {fuel : Nat} {w w1 : World σ} {err : Error}
    (hvalid : UIDMatcher create.UID = true)
    (h : allocate rand s ctx fuel w = Exec.ret (Exit.failed err w1)) :
    s.CreateMemo UIDMatcher rand ctx create fuel w = Exec.ret ⟨none, some err, create, w1⟩ := by
  simp [Store.CreateMemo, hvalid, h]

theorem CreateMemo_of_unique {σ : Type} {UIDMatcher : String → Bool} {rand : Nat → Nat}
    {s : Store σ} {ctx : Context} {create : Memo} {fuel : Nat} {w w1 : World σ} {sid : String}
    (hvalid : UIDMatcher create.UID = true)
    (h : allocate rand s ctx fuel w = Exec.ret (Exit.unique sid w1)) :
    s.CreateMemo UIDMatcher rand ctx create fuel w =
      Exec.ret ⟨(s.driver.CreateMemo w1.drv ctx { create with ShortID := sid }).1.1,
        (s.driver.CreateMemo w1.drv ctx { create with ShortID := sid }).1.2,
        { create with ShortID := sid },
        { drv := (s.driver.CreateMemo w1.drv ctx { create with ShortID := sid }).2,
          drawn := w1.drawn,
          calls := w1.calls ++ [Call.CreateMemo { create with ShortID := sid }] }⟩ := by
  simp [Store.CreateMemo, hvalid, h]

theorem allocate_of_exit {σ : Type} {rand : Nat → Nat} {s : Store σ} {ctx : Context}
    {k fuel : Nat} {w wk : World σ} {e : Exit σ}
    (hk : afterCollisions rand s ctx k w = some wk)
    (he : attempt rand s ctx wk = some (Attempt.exit e)) (hfuel : k < fuel) :
    allocate rand s ctx fuel w = Exec.ret e := by
  obtain ⟨n, rfl⟩ : ∃ n, fuel = k + (n + 1) := ⟨fuel - k - 1, by omega⟩
  rw [allocate_shift (n + 1) k w wk hk, allocate, he]

/-! ## Visibility -/

/-- C6: `Visibility.String` normalizes every value into the closed enumeration:
the result is one of `"PUBLIC"`, `"PROTECTED"`, `"PRIVATE"`; it is the value's
own text for the three constants and `"PRIVATE"` for every other value (the
empty string and `"public"` among them); applying it twice gives the same
result as applying it once. -/
theorem Visibility_String_normalizes (v : Visibility) :
    (v.String = "PUBLIC" ∨ v.String = "PROTECTED" ∨ v.String = "PRIVATE") ∧
    v.String = (if v = Public ∨ v = Protected ∨ v = Private then v.val else "PRIVATE") ∧
    Public.String = "PUBLIC" ∧ Protected.String = "PROTECTED" ∧ Private.String = "PRIVATE" ∧
    Visibility.String ⟨""⟩ = "PRIVATE" ∧ Visibility.String ⟨"public"⟩ = "PRIVATE" ∧
    Visibility.String ⟨v.String⟩ = v.String := by
  have hconst : Public.String = "PUBLIC" ∧ Protected.String = "PROTECTED" ∧
      Private.String = "PRIVATE" := by decide
  refine ⟨?_, ?_, hconst.1, hconst.2.1, hconst.2.2, by decide, by decide, ?_⟩
  · unfold Visibility.String
    split_ifs <;> simp
  · by_cases h1 : v = Public
    · subst h1; simp [hconst.1]; rfl
    · by_cases h2 : v = Protected
      · subst h2; simp [hconst.2.1]; rfl
      · by_cases h3 : v = Private
        · subst h3; simp [hconst.2.2]; rfl
        · simp [Visibility.String, h1, h2, h3]
  · by_cases h1 : v = Public
    · subst h1; decide
    · by_cases h2 : v = Protected
      · subst h2; decide
      · by_cases h3 : v = Private
        · subst h3; decide
        · have : v.String = "PRIVATE" := by simp [Visibility.String, h1, h2, h3]
          rw [this]; decide

/-! ## Get -/

/-- C5: `GetMemo` calls the driver's `ListMemos` once, with the filter it was
given, and returns the head of the driver's list: the driver's error and no
memo when the driver fails, absent and no error when the list is empty, the
first element and no error when the list is non-empty. -/
theorem GetMemo_head {σ : Type} (s : Store σ) (ctx : Context) (find : FindMemo) (w : World σ) :
    (s.GetMemo ctx find w).2 =
      { drv := (s.driver.ListMemos w.drv ctx find).2, drawn := w.drawn,
        calls := w.calls ++ [Call.ListMemos find] } ∧
    (∀ err, (s.driver.ListMemos w.drv ctx find).1.2 = some err →
      (s.GetMemo ctx find w).1 = (none, some err)) ∧
    ((s.driver.ListMemos w.drv ctx find).1 = ([], none) →
      (s.GetMemo ctx find w).1 = (none, none)) ∧
    (∀ memo rest, (s.driver.ListMemos w.drv ctx find).1 = (memo :: rest, none) →
      (s.GetMemo ctx find w).1 = (memo, none)) := by
  refine ⟨?_, ?_, ?_, ?_⟩
  · unfold Store.GetMemo Store.ListMemos
    dsimp only
    split
    · rfl
    · split <;> rfl
  · intro err h
    simp [Store.GetMemo, Store.ListMemos, h]
  · intro h
    simp [Store.GetMemo, Store.ListMemos, h]
  · intro memo rest h
    simp [Store.GetMemo, Store.ListMemos, h]

/-- Witness for `GetMemo_head`: a failing lookup, an empty store and a store
with two memos under the recording driver. -/
theorem GetMemo_head_witness :
    (Store.GetMemo ⟨countdownDriver ⟨1, "u", "abc1234", "", 0, 0, 0, "", Public, false, none, none⟩⟩
        ⟨0⟩ {} ⟨0, 0, []⟩).1 = (none, some (errors.New "context canceled")) ∧
    (Store.GetMemo ⟨recordingDriver⟩ ⟨0⟩ {} ⟨[], 0, []⟩).1 = (none, none) ∧
    (Store.GetMemo ⟨recordingDriver⟩ ⟨0⟩ {}
        ⟨[⟨1, "u", "abc1234", "", 0, 0, 0, "", Public, false, none, none⟩,
          ⟨2, "v", "abd1234", "", 0, 0, 0, "", Public, false, none, none⟩], 0, []⟩).1 =
      (some ⟨1, "u", "abc1234", "", 0, 0, 0, "", Public, false, none, none⟩, none) :=
  ⟨(GetMemo_head _ _ _ _).2.1 _ rfl, (GetMemo_head _ _ _ _).2.2.1 rfl,
    (GetMemo_head _ _ _ _).2.2.2 _ _ rfl⟩

/-! ## Update -/

/-- C2: `UpdateMemo` fails with the invalid-UID error without calling the
driver exactly when a UID is supplied and does not match; then nothing in the
world changes. In every other case it calls the driver's `UpdateMemo` once,
with the descriptor it was given, and returns the driver's result. -/
theorem UpdateMemo_validates_uid {σ : Type} (UIDMatcher : String → Bool) (s : Store σ)
    (ctx : Context) (update : UpdateMemo) (w : World σ) :
    (((s.UpdateMemo UIDMatcher ctx update w).1 = some (errors.New "invalid uid") ∧
        (s.UpdateMemo UIDMatcher ctx update w).2.calls = w.calls) ↔
      ∃ uid, update.UID = some uid ∧ UIDMatcher uid = false) ∧
    ((∃ uid, update.UID = some uid ∧ UIDMatcher uid = false) →
      s.UpdateMemo UIDMatcher ctx update w = (some (errors.New "invalid uid"), w)) ∧
    ((¬ ∃ uid, update.UID = some uid ∧ UIDMatcher uid = false) →
      s.UpdateMemo UIDMatcher ctx update w =
        ((s.driver.UpdateMemo w.drv ctx update).1,
          { drv := (s.driver.UpdateMemo w.drv ctx update).2, drawn := w.drawn,
            calls := w.calls ++ [Call.UpdateMemo update] })) := by
  have hrej : (∃ uid, update.UID = some uid ∧ UIDMatcher uid = false) →
      s.UpdateMemo UIDMatcher ctx update w = (some (errors.New "invalid uid"), w) := by
    rintro ⟨uid, hu, hm⟩
    simp [Store.UpdateMemo, hu, hm]
  have hacc : (¬ ∃ uid, update.UID = some uid ∧ UIDMatcher uid = false) →
      s.UpdateMemo UIDMatcher ctx update w =
        ((s.driver.UpdateMemo w.drv ctx update).1,
          { drv := (s.driver.UpdateMemo w.drv ctx update).2, drawn := w.drawn,
            calls := w.calls ++ [Call.UpdateMemo update] }) := by
    intro h
    cases hu : update.UID with
    | none => simp [Store.UpdateMemo, hu]
    | some uid =>
      have hm : UIDMatcher uid = true := by
        cases hm : UIDMatcher uid with
        | true => rfl
        | false => exact absurd ⟨uid, hu, hm⟩ h
      simp [Store.UpdateMemo, hu, hm]
  refine ⟨⟨?_, ?_⟩, hrej, hacc⟩
  · rintro ⟨_, hc⟩
    by_contra h
    rw [hacc h] at hc
    simp at hc
  · intro h
    rw [hrej h]
    exact ⟨rfl, rfl⟩

/-- Witness for `UpdateMemo_validates_uid`: a descriptor with a rejected UID
and a descriptor without UID, against the patch driver. -/
theorem UpdateMemo_validates_uid_witness :
    Store.UpdateMemo (fun uid => uid != "bad uid!") ⟨patchDriver⟩ ⟨0⟩
        { ID := 1, UID := some "bad uid!" } ⟨[], 0, []⟩ =
      (some (errors.New "invalid uid"), ⟨[], 0, []⟩) ∧
    Store.UpdateMemo (fun uid => uid != "bad uid!") ⟨patchDriver⟩ ⟨0⟩
        { ID := 1, Content := some "x" } ⟨[], 0, []⟩ =
      (none, ⟨[], 0, [Call.UpdateMemo { ID := 1, Content := some "x" }]⟩) :=
  ⟨(UpdateMemo_validates_uid _ _ _ _ _).2.1 ⟨"bad uid!", rfl, by decide⟩,
    (UpdateMemo_validates_uid _ _ _ _ _).2.2 (by simp)⟩

/-! ## Create: validation -/

/-- C1: for a memo whose UID does not match the identifier matcher,
`CreateMemo` returns no memo and the invalid-UID error (the error the
specification classifies as `InvalidArgument`), whatever the fuel; the world is
untouched (no driver call, no random draw, same driver state) and so is the
caller's memo, its `ShortID` included. -/
theorem CreateMemo_invalid_uid {σ : Type} (UIDMatcher : String → Bool) (rand : Nat → Nat)
    (s : Store σ) (ctx : Context) (create : Memo) (fuel : Nat) (w : World σ)
    (h : UIDMatcher create.UID = false) :
    s.CreateMemo UIDMatcher rand ctx create fuel w =
      Exec.ret ⟨none, some (errors.New "invalid uid"), create, w⟩ := by
  simp [Store.CreateMemo, h]

/-- Witness for `CreateMemo_invalid_uid`: the UID `"bad uid!"` under a matcher
that rejects it. -/
theorem CreateMemo_invalid_uid_witness :
    (fun uid : String => uid != "bad uid!") "bad uid!" = false ∧
    Store.CreateMemo (fun uid => uid != "bad uid!") (fun n => n) ⟨recordingDriver⟩ ⟨0⟩
        ⟨1, "bad uid!", "", "", 0, 0, 0, "hello", Public, false, none, none⟩ 5 ⟨[], 0, []⟩ =
      Exec.ret ⟨none, some (errors.New "invalid uid"),
        ⟨1, "bad uid!", "", "", 0, 0, 0, "hello", Public, false, none, none⟩, ⟨[], 0, []⟩⟩ :=
  ⟨by decide, CreateMemo_invalid_uid _ _ _ _ _ _ _ (by decide)⟩

/-! ## Create: candidate generation -/

/-- C9: candidate generation, as a function of the seven draws of one attempt
(three indices below 26, four below 10), is a bijection onto the strings
matching `[a-z]{3}[0-9]{4}`: every tuple yields a matching string, distinct
tuples yield distinct strings, every matching string is yielded by a tuple, and
there are `26 ^ 3 * 10 ^ 4 = 175760000` tuples and as many matching strings.
In every run, generation indexes within its alphabets (it does not panic),
consumes exactly seven values of the random source and yields the candidate of
the seven indices drawn. -/
theorem candidate_bijective :
    (∀ d : Draws, ∃ s, candidate d = some s ∧ matchesShortID s = true) ∧
    Function.Injective candidate ∧
    (∀ s, matchesShortID s = true → ∃ d : Draws, candidate d = some s) ∧
    Fintype.card Draws = 26 ^ 3 * 10 ^ 4 ∧ 26 ^ 3 * 10 ^ 4 = 175760000 ∧
    Nat.card { s : String // matchesShortID s = true } = 175760000 ∧
    (∀ (σ : Type) (rand : Nat → Nat) (w : World σ),
      genShortID rand w =
        (candidate (drawsOf rand w.drawn)).map (fun s => (s, { w with drawn := w.drawn + 7 }))) := by
  refine ⟨fun d => ⟨_, candidate_eq d, matchesShortID_shortIDAt _ _⟩,
    fun d d1 h => candidate_injective d d1 h, candidate_surjective, ?_, by norm_num,
    card_matching, ?_⟩
  · exact card_Draws.trans (by norm_num)
  · intro σ rand w
    rw [genShortID_eq, candidate_eq, shortIDAt_drawsOf]
    rfl

/-- Witness for `candidate_bijective`: the matching string `"xyz0099"` is the
candidate of some tuple of draws, and the tuple of all-zero draws yields
`"aaa0000"`. -/
theorem candidate_bijective_witness :
    (∃ d : Draws, candidate d = some "xyz0099") ∧
    candidate ((0, 0, 0), (0, 0, 0, 0)) = some "aaa0000" :=
  ⟨candidate_bijective.2.2.1 "xyz0099" (by decide), rfl⟩

/-! ## Create: the format of the allocated ShortID -/

/-- C3 (as stated, refuted): against a driver that reports no failure and
answers every uniqueness lookup with a memo, `CreateMemo` on a memo with a
valid UID does not return, whatever the fuel. -/
theorem CreateMemo_may_not_return :
    (collidingDriver ⟨1, "abc-123", "", "", 0, 0, 0, "hello", Public, false, none, none⟩).NoFailure ∧
    ¬ ∃ fuel r, Store.CreateMemo (fun _ => true) (fun n => n)
        ⟨collidingDriver ⟨1, "abc-123", "", "", 0, 0, 0, "hello", Public, false, none, none⟩⟩ ⟨0⟩
        ⟨2, "abc-124", "", "", 0, 0, 0, "world", Public, false, none, none⟩ fuel ⟨(), 0, []⟩ =
      Exec.ret r := by
  refine ⟨⟨fun _ _ _ => rfl, fun _ _ _ => rfl, fun _ _ _ => rfl, fun _ _ _ => rfl⟩, ?_⟩
  have key : ∀ (fuel : Nat) (w : World Unit), allocate (fun n => n)
      ⟨collidingDriver ⟨1, "abc-123", "", "", 0, 0, 0, "hello", Public, false, none, none⟩⟩ ⟨0⟩
      fuel w = Exec.outOfFuel := by
    intro fuel
    induction fuel with
    | zero => intro w; rfl
    | succ n ih =>
      intro w
      rw [allocate, attempt_eq]
      simp only [collidingDriver]
      exact ih _
  rintro ⟨fuel, r, h⟩
  rw [CreateMemo_of_outOfFuel rfl (key fuel _)] at h
  cases h

/-- C3 (amended): for a memo with a valid UID, a driver that reports no
failure and any random draws, `CreateMemo` never panics and never fails:
within any fuel it is still retrying or it has returned without error, having
handed to the driver's `CreateMemo`, as its last driver call, a memo whose
`ShortID` matches `[a-z]{3}[0-9]{4}`. It does return, with the driver's answer
to that memo, for every fuel above `k` when the first `k` lookups find a
memo and the next one finds none. -/
theorem CreateMemo_shortID_format {σ : Type} (UIDMatcher : String → Bool) (rand : Nat → Nat)
    (s : Store σ) (ctx : Context) (create : Memo) (w : World σ)
    (hvalid : UIDMatcher create.UID = true) (hdrv : s.driver.NoFailure) :
    (∀ fuel, s.CreateMemo UIDMatcher rand ctx create fuel w = Exec.outOfFuel ∨
      ∃ r, s.CreateMemo UIDMatcher rand ctx create fuel w = Exec.ret r ∧ r.err = none ∧
        matchesShortID r.create.ShortID = true ∧
        r.world.calls.getLast? = some (Call.CreateMemo r.create)) ∧
    (∀ k wk sid w1, afterCollisions rand s ctx k w = some wk →
      attempt rand s ctx wk = some (Attempt.exit (Exit.unique sid w1)) →
      ∀ fuel, k < fuel →
        matchesShortID sid = true ∧
        s.CreateMemo UIDMatcher rand ctx create fuel w =
          Exec.ret ⟨(s.driver.CreateMemo w1.drv ctx { create with ShortID := sid }).1.1, none,
            { create with ShortID := sid },
            { drv := (s.driver.CreateMemo w1.drv ctx { create with ShortID := sid }).2,
              drawn := w1.drawn,
              calls := w1.calls ++ [Call.CreateMemo { create with ShortID := sid }] }⟩) := by
  constructor
  · intro fuel
    rcases allocate_cases rand s ctx fuel w with h | ⟨j, wj, e, -, -, he, hr⟩
    · exact Or.inl (CreateMemo_of_outOfFuel hvalid h)
    · right
      rcases attempt_exit he with ⟨err, herr, -⟩ | ⟨-, -, rfl⟩
      · rw [hdrv.2.1] at herr
        cases herr
      · refine ⟨_, CreateMemo_of_unique hvalid hr, hdrv.1 _ _ _, ?_, ?_⟩
        · exact matchesShortID_shortIDAt rand wj.drawn
        · simp
  · intro k wk sid w1 hk he fuel hfuel
    have hr := allocate_of_exit hk he hfuel
    rcases attempt_exit he with ⟨err, -, hcontra⟩ | ⟨-, -, hu⟩
    · cases hcontra
    · injection hu with h1 h2
      subst h1
      refine ⟨matchesShortID_shortIDAt rand wk.drawn, ?_⟩
      rw [CreateMemo_of_unique hvalid hr, hdrv.1]

/-- Witness for `CreateMemo_shortID_format`: the recording driver on an empty
store; the first lookup finds nothing and `"abc3456"` is allocated. -/
theorem CreateMemo_shortID_format_witness :
    matchesShortID "abc3456" = true ∧
    Store.CreateMemo (fun _ => true) (fun n => n) ⟨recordingDriver⟩ ⟨0⟩
        ⟨1, "abc-123", "", "", 0, 0, 0, "hello", Public, false, none, none⟩ 1 ⟨[], 0, []⟩ =
      Exec.ret ⟨some ⟨1, "abc-123", "abc3456", "", 0, 0, 0, "hello", Public, false, none, none⟩,
        none, ⟨1, "abc-123", "abc3456", "", 0, 0, 0, "hello", Public, false, none, none⟩,
        ⟨[⟨1, "abc-123", "abc3456", "", 0, 0, 0, "hello", Public, false, none, none⟩], 7,
          [Call.ListMemos { ShortID := some "abc3456" },
            Call.CreateMemo
              ⟨1, "abc-123", "abc3456", "", 0, 0, 0, "hello", Public, false, none, none⟩]⟩⟩ :=
  (CreateMemo_shortID_format (fun _ => true) (fun n => n) ⟨recordingDriver⟩ ⟨0⟩
    ⟨1, "abc-123", "", "", 0, 0, 0, "hello", Public, false, none, none⟩ ⟨[], 0, []⟩ rfl
    ⟨fun _ _ _ => rfl, fun _ _ _ => rfl, fun _ _ _ => rfl, fun _ _ _ => rfl⟩).2 0 ⟨[], 0, []⟩
    "abc3456"
    ⟨[], 7, [Call.ListMemos { ShortID := some "abc3456" }]⟩ rfl rfl 1 (by decide)

/-! ## Create: cancellation -/

/-- C7: let the driver honour cancellation: whenever the context's
cancellation error `cancelErr` is set in the driver state, `ListMemos` returns
it. If the context is found canceled at the lookup that follows `k`
collisions, then for every fuel above `k` and any random draws `CreateMemo`
returns at that lookup: no memo, that error unchanged, the caller's memo
untouched, exactly `7 * (k + 1)` values drawn, and `k + 1` new driver calls,
all of them `ListMemos` (the driver's `CreateMemo` is not called). -/
theorem CreateMemo_cancellation {σ : Type} (UIDMatcher : String → Bool) (rand : Nat → Nat)
    (s : Store σ) (ctx : Context) (create : Memo) (w wk : World σ) (k fuel : Nat)
    (cancelErr : σ → Option Error) (err : Error)
    (hvalid : UIDMatcher create.UID = true)
    (hhonour : ∀ st find e, cancelErr st = some e → (s.driver.ListMemos st ctx find).1.2 = some e)
    (hk : afterCollisions rand s ctx k w = some wk)
    (hcancel : cancelErr wk.drv = some err) (hfuel : k < fuel) :
    ∃ w1 new, s.CreateMemo UIDMatcher rand ctx create fuel w =
        Exec.ret ⟨none, some err, create, w1⟩ ∧
      w1.drawn = w.drawn + 7 * (k + 1) ∧ w1.calls = w.calls ++ new ∧ new.length = k + 1 ∧
      (∀ c ∈ new, c.isListMemos = true) ∧ ∀ c ∈ new, c.isCreateMemo = false := by
  have he : attempt rand s ctx wk =
      some (Attempt.exit (Exit.failed err (afterLookup rand s ctx wk))) := by
    rw [attempt_eq, hhonour _ _ _ hcancel]
  obtain ⟨hd, new, hc, hl, hall⟩ := afterCollisions_world k w wk hk
  have hlist : ∀ c ∈ new ++ [Call.ListMemos (lookupFind rand wk)], c.isListMemos = true := by
    intro c hc
    rcases List.mem_append.1 hc with h | h
    · exact hall c h
    · rw [List.mem_singleton.1 h]; rfl
  refine ⟨afterLookup rand s ctx wk, new ++ [Call.ListMemos (lookupFind rand wk)],
    CreateMemo_of_failed hvalid (allocate_of_exit hk he hfuel), ?_, ?_, by simp [hl], hlist, ?_⟩
  · simp only [afterLookup, hd]; omega
  · simp [afterLookup, hc]
  · intro c hc
    have := hlist c hc
    cases c <;> simp_all [Call.isListMemos, Call.isCreateMemo]

/-- Witness for `CreateMemo_cancellation`: the countdown driver, whose context
is canceled after two lookups; both lookups collide and the third returns the
cancellation error. -/
theorem CreateMemo_cancellation_witness :
    ∃ w1 new, Store.CreateMemo (fun _ => true) (fun n => n)
        ⟨countdownDriver ⟨1, "abc-123", "", "", 0, 0, 0, "hello", Public, false, none, none⟩⟩ ⟨0⟩
        ⟨2, "abc-124", "", "", 0, 0, 0, "world", Public, false, none, none⟩ 3 ⟨2, 0, []⟩ =
        Exec.ret ⟨none, some (errors.New "context canceled"),
          ⟨2, "abc-124", "", "", 0, 0, 0, "world", Public, false, none, none⟩, w1⟩ ∧
      w1.drawn = 0 + 7 * (2 + 1) ∧ w1.calls = [] ++ new ∧ new.length = 2 + 1 ∧
      (∀ c ∈ new, c.isListMemos = true) ∧ ∀ c ∈ new, c.isCreateMemo = false :=
  CreateMemo_cancellation (fun _ => true) (fun n => n)
    ⟨countdownDriver ⟨1, "abc-123", "", "", 0, 0, 0, "hello", Public, false, none, none⟩⟩ ⟨0⟩
    ⟨2, "abc-124", "", "", 0, 0, 0, "world", Public, false, none, none⟩ ⟨2, 0, []⟩
    ⟨0, 14, [Call.ListMemos { ShortID := some "abc3456" },
      Call.ListMemos { ShortID := some "hij0123" }]⟩ 2 3 countdownErr
    (errors.New "context canceled") rfl
    (fun st find e h => by simp [countdownDriver, h]) rfl rfl (by decide)

/-! ## Create: frame -/

/-- C10: for a memo with a valid UID, whenever `CreateMemo` returns, either a
uniqueness lookup failed, and then the caller's memo is entirely unchanged and
the driver's `CreateMemo` was not called, or the driver's `CreateMemo` was
reached as the last driver call, and the memo handed to it is the caller's
memo with the `ShortID` replaced by the last generated candidate (whatever
`ShortID` the caller supplied) and every other field as supplied. -/
theorem CreateMemo_frame {σ : Type} (UIDMatcher : String → Bool) (rand : Nat → Nat)
    (s : Store σ) (ctx : Context) (create : Memo) (fuel : Nat) (w : World σ)
    (r : CreateResult σ) (hvalid : UIDMatcher create.UID = true)
    (hret : s.CreateMemo UIDMatcher rand ctx create fuel w = Exec.ret r) :
    (r.memo = none ∧ r.err ≠ none ∧ r.create = create ∧
      ∃ new, r.world.calls = w.calls ++ new ∧ ∀ c ∈ new, c.isCreateMemo = false) ∨
    (r.world.calls.getLast? = some (Call.CreateMemo r.create) ∧
      (∃ j, r.create.ShortID = shortIDAt rand (w.drawn + 7 * j) ∧
        r.world.drawn = w.drawn + 7 * (j + 1)) ∧
      r.create = { create with ShortID := r.create.ShortID } ∧
      r.create.ID = create.ID ∧ r.create.UID = create.UID ∧
      r.create.RowStatus = create.RowStatus ∧ r.create.CreatorID = create.CreatorID ∧
      r.create.CreatedTs = create.CreatedTs ∧ r.create.UpdatedTs = create.UpdatedTs ∧
      r.create.Content = create.Content ∧ r.create.Visibility = create.Visibility ∧
      r.create.Pinned = create.Pinned ∧ r.create.Payload = create.Payload ∧
      r.create.ParentID = create.ParentID) := by
  rcases allocate_cases rand s ctx fuel w with h | ⟨j, wj, e, -, hk, he, hr⟩
  · rw [CreateMemo_of_outOfFuel hvalid h] at hret
    cases hret
  · obtain ⟨hd, new, hc, -, hall⟩ := afterCollisions_world j w wj hk
    rcases attempt_exit he with ⟨err, -, rfl⟩ | ⟨-, -, rfl⟩
    · left
      rw [CreateMemo_of_failed hvalid hr] at hret
      injection hret with hret
      subst hret
      refine ⟨rfl, by simp, rfl, new ++ [Call.ListMemos (lookupFind rand wj)], ?_, ?_⟩
      · simp [afterLookup, hc]
      · intro c hc
        rcases List.mem_append.1 hc with h | h
        · have := hall c h
          cases c <;> simp_all [Call.isListMemos, Call.isCreateMemo]
        · rw [List.mem_singleton.1 h]; rfl
    · right
      rw [CreateMemo_of_unique hvalid hr] at hret
      injection hret with hret
      subst hret
      refine ⟨by simp, ⟨j, ?_, ?_⟩, rfl, rfl, rfl, rfl, rfl, rfl, rfl, rfl, rfl, rfl, rfl, rfl⟩
      · simp only [hd]
      · simp only [afterLookup, hd]; omega

/-- Witness for `CreateMemo_frame`: a memo that arrives with the `ShortID`
`"mine"` and an unrecognized visibility reaches the recording driver with the
`ShortID` `"abc3456"` and everything else as supplied. -/
theorem CreateMemo_frame_witness :
    (⟨1, "abc-123", "abc3456", "ARCHIVED", 4, 5, 6, "hello", ⟨"secret"⟩, true, some ⟨"p"⟩,
        some 9⟩ : Memo) =
      { (⟨1, "abc-123", "mine", "ARCHIVED", 4, 5, 6, "hello", ⟨"secret"⟩, true, some ⟨"p"⟩,
          some 9⟩ : Memo) with ShortID := "abc3456" } ∧
    [Call.ListMemos { ShortID := some "abc3456" },
        Call.CreateMemo ⟨1, "abc-123", "abc3456", "ARCHIVED", 4, 5, 6, "hello", ⟨"secret"⟩, true,
          some ⟨"p"⟩, some 9⟩].getLast? =
      some (Call.CreateMemo ⟨1, "abc-123", "abc3456", "ARCHIVED", 4, 5, 6, "hello", ⟨"secret"⟩,
        true, some ⟨"p"⟩, some 9⟩) :=
  have h := CreateMemo_frame (fun _ => true) (fun n => n) ⟨recordingDriver⟩ ⟨0⟩
    ⟨1, "abc-123", "mine", "ARCHIVED", 4, 5, 6, "hello", ⟨"secret"⟩, true, some ⟨"p"⟩, some 9⟩
    1 ⟨[], 0, []⟩
    ⟨some ⟨1, "abc-123", "abc3456", "ARCHIVED", 4, 5, 6, "hello", ⟨"secret"⟩, true, some ⟨"p"⟩,
        some 9⟩, none,
      ⟨1, "abc-123", "abc3456", "ARCHIVED", 4, 5, 6, "hello", ⟨"secret"⟩, true, some ⟨"p"⟩, some 9⟩,
      ⟨[⟨1, "abc-123", "abc3456", "ARCHIVED", 4, 5, 6, "hello", ⟨"secret"⟩, true, some ⟨"p"⟩,
          some 9⟩], 7,
        [Call.ListMemos { ShortID := some "abc3456" },
          Call.CreateMemo ⟨1, "abc-123", "abc3456", "ARCHIVED", 4, 5, 6, "hello", ⟨"secret"⟩, true,
            some ⟨"p"⟩, some 9⟩]⟩⟩ rfl rfl
  h.elim (fun hl => absurd rfl hl.2.1) (fun hr => ⟨hr.2.2.1, hr.1⟩)

/-! ## Create: uniqueness against the recording driver -/

theorem recording_afterLookup_drv (rand : Nat → Nat) (ctx : Context) (w : World (List Memo)) :
    (afterLookup rand ⟨recordingDriver⟩ ctx w).drv = w.drv := rfl

theorem recording_afterCollisions_drv {rand : Nat → Nat} {ctx : Context} :
    ∀ (k : Nat) (w wk : World (List Memo)),
      afterCollisions rand ⟨recordingDriver⟩ ctx k w = some wk → wk.drv = w.drv
  | 0, w, wk, h => by
    simp only [afterCollisions, Option.some.injEq] at h
    subst h
    rfl
  | k + 1, w, wk, h => by
    obtain ⟨-, hk⟩ := afterCollisions_succ h
    rw [recording_afterCollisions_drv k _ _ hk, recording_afterLookup_drv]

theorem recording_lookup_fresh {rand : Nat → Nat} {ctx : Context} {w : World (List Memo)}
    (h : ∀ m rest, ((⟨recordingDriver⟩ : Store (List Memo)).driver.ListMemos w.drv ctx
      (lookupFind rand w)).1.1 ≠ some m :: rest) :
    shortIDAt rand w.drawn ∉ w.drv.map Memo.ShortID := by
  intro hmem
  obtain ⟨m, hm, hsid⟩ := List.mem_map.1 hmem
  have hin : m ∈ w.drv.filter (fun m => decide (m.ShortID = shortIDAt rand w.drawn)) := by
    simp [List.mem_filter, hm, hsid]
  rcases hf : w.drv.filter (fun m => decide (m.ShortID = shortIDAt rand w.drawn)) with _ | ⟨a, l⟩
  · rw [hf] at hin
    simp at hin
  · apply h a (l.map some)
    simp [recordingDriver, lookupFind, eq_comm, hf]

theorem recording_CreateMemo {UIDMatcher : String → Bool} {rand : Nat → Nat} {ctx : Context}
    {create : Memo} {fuel : Nat} {w : World (List Memo)} {r : CreateResult (List Memo)}
    (hret : Store.CreateMemo UIDMatcher rand ⟨recordingDriver⟩ ctx create fuel w = Exec.ret r)
    (herr : r.err = none) :
    r.create.ShortID ∉ w.drv.map Memo.ShortID ∧ r.memo = some r.create ∧
      r.world.drv = w.drv ++ [r.create] := by
  cases hvalid : UIDMatcher create.UID with
  | false =>
    rw [CreateMemo_invalid_uid_aux hvalid] at hret
    injection hret with hret
    subst hret
    cases herr
  | true =>
    rcases allocate_cases rand ⟨recordingDriver⟩ ctx fuel w with h | ⟨j, wj, e, -, hk, he, hr⟩
    · rw [CreateMemo_of_outOfFuel hvalid h] at hret
      cases hret
    · have hdrv := recording_afterCollisions_drv j w wj hk
      rcases attempt_exit he with ⟨err, -, rfl⟩ | ⟨-, hfree, rfl⟩
      · rw [CreateMemo_of_failed hvalid hr] at hret
        injection hret with hret
        subst hret
        cases herr
      · rw [CreateMemo_of_unique hvalid hr] at hret
        injection hret with hret
        subst hret
        refine ⟨?_, rfl, ?_⟩
        · rw [← hdrv]
          exact recording_lookup_fresh hfree
        · show (afterLookup rand ⟨recordingDriver⟩ ctx wj).drv ++ _ = _
          rw [recording_afterLookup_drv, hdrv]

theorem recording_createAll {UIDMatcher : String → Bool} {ctx : Context} :
    ∀ (reqs : List (Memo × (Nat → Nat) × Nat)) (w w1 : World (List Memo)) (ids : List String),
      (w.drv.map Memo.ShortID).Nodup →
      createAll UIDMatcher ⟨recordingDriver⟩ ctx reqs w = some (ids, w1) →
      ids.length = reqs.length ∧ w1.drv.map Memo.ShortID = w.drv.map Memo.ShortID ++ ids ∧
        (w.drv.map Memo.ShortID ++ ids).Nodup
  | [], w, w1, ids, hn, h => by
    simp only [createAll, Option.some.injEq, Prod.mk.injEq] at h
    obtain ⟨rfl, rfl⟩ := h
    simpa using hn
  | req :: rest, w, w1, ids, hn, h => by
    rw [createAll] at h
    split at h
    · rename_i r hret
      split at h
      · rename_i herr
        obtain ⟨hfresh, -, hdrv⟩ := recording_CreateMemo hret herr
        rcases hrest : createAll UIDMatcher ⟨recordingDriver⟩ ctx rest r.world with _ | ⟨ids1, w2⟩
        · rw [hrest] at h
          simp at h
        · rw [hrest] at h
          simp only [Option.map_some', Option.some.injEq, Prod.mk.injEq] at h
          obtain ⟨rfl, rfl⟩ := h
          have hn1 : (r.world.drv.map Memo.ShortID).Nodup := by
            rw [hdrv, List.map_append, List.map_singleton]
            exact List.Nodup.append hn (List.nodup_singleton _)
              (by simpa [List.Disjoint] using hfresh)
          obtain ⟨hl, hm, hnd⟩ := recording_createAll rest r.world w2 ids1 hn1 hrest
          rw [hdrv, List.map_append, List.map_singleton, List.append_assoc] at hm hnd
          exact ⟨by simp [hl], hm, hnd⟩
      · simp at h
    · simp at h

/-- C4: against the recording driver, starting from a store whose `ShortID`s
are pairwise distinct: a `CreateMemo` call that returns without error has
committed to a candidate that no stored memo carries (its lookup returned no
memo) and has stored exactly that memo, so the stored `ShortID`s stay pairwise
distinct; and after any number of successful `CreateMemo` calls, with any
memos, random draws and fuels, the `ShortID`s produced are pairwise distinct
and distinct from those stored before. -/
theorem CreateMemo_shortIDs_distinct (UIDMatcher : String → Bool) (ctx : Context)
    (w : World (List Memo)) (hnodup : (w.drv.map Memo.ShortID).Nodup) :
    (∀ rand create fuel r,
      Store.CreateMemo UIDMatcher rand ⟨recordingDriver⟩ ctx create fuel w = Exec.ret r →
      r.err = none →
        r.create.ShortID ∉ w.drv.map Memo.ShortID ∧ r.memo = some r.create ∧
        r.world.drv = w.drv ++ [r.create] ∧ (r.world.drv.map Memo.ShortID).Nodup) ∧
    (∀ reqs ids w1, createAll UIDMatcher ⟨recordingDriver⟩ ctx reqs w = some (ids, w1) →
      ids.length = reqs.length ∧ w1.drv.map Memo.ShortID = w.drv.map Memo.ShortID ++ ids ∧
        (w.drv.map Memo.ShortID ++ ids).Nodup ∧ (w1.drv.map Memo.ShortID).Nodup) := by
  constructor
  · intro rand create fuel r hret herr
    obtain ⟨hfresh, hmemo, hdrv⟩ := recording_CreateMemo hret herr
    refine ⟨hfresh, hmemo, hdrv, ?_⟩
    rw [hdrv, List.map_append, List.map_singleton]
    exact List.Nodup.append hnodup (List.nodup_singleton _) (by simpa [List.Disjoint] using hfresh)
  · intro reqs ids w1 h
    obtain ⟨hl, hm, hnd⟩ := recording_createAll reqs w w1 ids hnodup h
    exact ⟨hl, hm, hnd, hm ▸ hnd⟩

/-- Witness for `CreateMemo_shortIDs_distinct`: two creations on a store that
holds `"aaa0000"`; the first call draws `"aaa0000"`, collides and retries. -/
theorem CreateMemo_shortIDs_distinct_witness :
    ([⟨1, "u1", "aaa0000", "", 0, 0, 0, "", Public, false, none, none⟩].map Memo.ShortID).Nodup ∧
    ([⟨1, "u1", "aaa0000", "", 0, 0, 0, "", Public, false, none, none⟩].map Memo.ShortID ++
      ["hij0123", "abc3456"]).Nodup :=
  have h := (CreateMemo_shortIDs_distinct (fun _ => true) ⟨0⟩
    ⟨[⟨1, "u1", "aaa0000", "", 0, 0, 0, "", Public, false, none, none⟩], 0, []⟩
    (by decide)).2
    [(⟨2, "u2", "", "", 0, 0, 0, "", Public, false, none, none⟩,
        (fun n => if n < 7 then 0 else n), 2),
      (⟨3, "u3", "", "", 0, 0, 0, "", Public, false, none, none⟩, (fun n => n - 14), 1)]
    ["hij0123", "abc3456"]
    ⟨[⟨1, "u1", "aaa0000", "", 0, 0, 0, "", Public, false, none, none⟩,
        ⟨2, "u2", "hij0123", "", 0, 0, 0, "", Public, false, none, none⟩,
        ⟨3, "u3", "abc3456", "", 0, 0, 0, "", Public, false, none, none⟩], 21,
      [Call.ListMemos { ShortID := some "aaa0000" }, Call.ListMemos { ShortID := some "hij0123" },
        Call.CreateMemo ⟨2, "u2", "hij0123", "", 0, 0, 0, "", Public, false, none, none⟩,
        Call.ListMemos { ShortID := some "abc3456" },
        Call.CreateMemo ⟨3, "u3", "abc3456", "", 0, 0, 0, "", Public, false, none, none⟩]⟩ rfl
  ⟨by decide, h.2.2.1⟩

/-! ## Update: frame -/

/-- C8: `UpdateMemo` either rejects the descriptor, touching nothing, or hands
the driver the descriptor exactly as supplied, in one `UpdateMemo` call whose
result it returns. Against the patch driver, a descriptor carrying only `ID`
and `Content` is not rejected and changes nothing in the store but the
`Content` of the memos with that `ID`: `Visibility`, `Pinned` and `Payload` of
every stored memo keep their values. -/
theorem UpdateMemo_content_only (UIDMatcher : String → Bool) (ctx : Context) :
    (∀ (σ : Type) (s : Store σ) (update : UpdateMemo) (w : World σ),
      s.UpdateMemo UIDMatcher ctx update w = (some (errors.New "invalid uid"), w) ∨
      s.UpdateMemo UIDMatcher ctx update w =
        ((s.driver.UpdateMemo w.drv ctx update).1,
          { drv := (s.driver.UpdateMemo w.drv ctx update).2, drawn := w.drawn,
            calls := w.calls ++ [Call.UpdateMemo update] })) ∧
    (∀ (id : Int) (content : String) (w : World (List Memo)),
      Store.UpdateMemo UIDMatcher ⟨patchDriver⟩ ctx { ID := id, Content := some content } w =
        (none,
          { drv := w.drv.map (fun m => if m.ID = id then { m with Content := content } else m),
            drawn := w.drawn,
            calls := w.calls ++ [Call.UpdateMemo { ID := id, Content := some content }] }) ∧
      (w.drv.map (fun m => if m.ID = id then { m with Content := content } else m)).map
          Memo.Visibility = w.drv.map Memo.Visibility ∧
      (w.drv.map (fun m => if m.ID = id then { m with Content := content } else m)).map
          Memo.Pinned = w.drv.map Memo.Pinned ∧
      (w.drv.map (fun m => if m.ID = id then { m with Content := content } else m)).map
          Memo.Payload = w.drv.map Memo.Payload) := by
  constructor
  · intro σ s update w
    unfold Store.UpdateMemo
    dsimp only
    split_ifs
    · exact Or.inl rfl
    · exact Or.inr rfl
  · intro id content w
    refine ⟨?_, ?_, ?_, ?_⟩
    · have hp : (applyPatch { ID := id, Content := some content }) =
          (fun m => if m.ID = id then { m with Content := content } else m) := by
        funext m
        unfold applyPatch
        split_ifs <;> rfl
      simp [Store.UpdateMemo, patchDriver, hp]
    all_goals
      rw [List.map_map]
      apply List.map_congr_left
      intro m _
      simp only [Function.comp]
      split_ifs <;> rfl

end store
